import Mathlib

set_option maxRecDepth 2000

namespace PdfTools

/-!
Shallow embedding of `src/pdf_tools.py`.

The program depends on two external capabilities that are not part of the
repository: `pdfplumber` (PDF parsing) and Python's `re` / `str.format`
string mini-languages.  A PDF document is modelled as the observable
behaviour the code relies on: opening either fails or yields a list of
pages, and each page's `extract_text()` either fails or yields an optional
string.  The `re` library is modelled by an executable engine for the
regex subset the tool exercises (literals, `\d` `\w` `\s` classes, `.`,
`^` `$` anchors, alternation, `*` `+` `?` greedy quantifiers, numbered
groups and `(?P<name>...)` named groups, `(?:...)` non-capturing groups),
compiled — as in `rename_from_text` — with `re.IGNORECASE | re.MULTILINE`
baked in.  `str.format` is modelled for the placeholder forms the template
feature documents: literal text, `{{` `}}` escapes, `{}` auto-numbering,
`{N}` positional fields and `{name}` keyword fields.

Logging formatting is outside the specification's scope; each logging call
of the source is modelled as one semantic `LogEvent` carrying the data the
corresponding Python log line interpolates, with its `logging` severity
recoverable through `LogEvent.isError`.
-/

/-! Character classes appearing in the modelled regex subset. -/

inductive ClsKind
  | digit
  | word
  | space
  | anychar
  deriving DecidableEq, Repr

inductive Rx
  | eps
  | lit (c : Char)
  | cls (k : ClsKind)
  | bol
  | eol
  | seq (a b : Rx)
  | alt (a b : Rx)
  | star (a : Rx)
  | group (idx : Nat) (gname : Option String) (a : Rx)
  deriving DecidableEq, Repr

def rxSize : Rx → Nat
  | .eps => 1
  | .lit _ => 1
  | .cls _ => 1
  | .bol => 1
  | .eol => 1
  | .seq a b => rxSize a + rxSize b + 1
  | .alt a b => rxSize a + rxSize b + 1
  | .star a => rxSize a + 1
  | .group _ _ a => rxSize a + 1

/-- Error raised by `re.compile` on a malformed pattern (`re.error`). -/
inductive RxErr
  | badPattern
  deriving DecidableEq, Repr

/-- Parsing state: remaining characters, next free group number (Python
numbers groups from 1 in order of opening parenthesis), and the named
groups seen so far. -/
structure PState where
  rest : List Char
  nextIdx : Nat
  names : List (String × Nat)
  deriving Repr

def readGroupName : List Char → Option (String × List Char) :=
  fun cs =>
    let nameChars := cs.takeWhile fun c => c.isAlphanum || c = '_'
    let rest := cs.dropWhile fun c => c.isAlphanum || c = '_'
    match rest with
    | '>' :: rest2 => if nameChars = [] then none else some (String.mk nameChars, rest2)
    | _ => none

mutual

def parseAlt : Nat → PState → Except RxErr (Rx × PState)
  | 0, _ => .error .badPattern
  | fuel+1, st => do
    let (a, st1) ← parseSeq fuel st
    match st1.rest with
    | '|' :: rest2 =>
      let (b, st2) ← parseAlt fuel { st1 with rest := rest2 }
      .ok (.alt a b, st2)
    | _ => .ok (a, st1)

def parseSeq : Nat → PState → Except RxErr (Rx × PState)
  | 0, _ => .error .badPattern
  | fuel+1, st =>
    match st.rest with
    | [] => .ok (.eps, st)
    | ')' :: _ => .ok (.eps, st)
    | '|' :: _ => .ok (.eps, st)
    | _ => do
      let (a, st1) ← parsePiece fuel st
      let (b, st2) ← parseSeq fuel st1
      .ok (.seq a b, st2)

def parsePiece : Nat → PState → Except RxErr (Rx × PState)
  | 0, _ => .error .badPattern
  | fuel+1, st => do
    let (a, st1) ← parseAtom fuel st
    match st1.rest with
    | '*' :: rest2 => .ok (.star a, { st1 with rest := rest2 })
    | '+' :: rest2 => .ok (.seq a (.star a), { st1 with rest := rest2 })
    | '?' :: rest2 => .ok (.alt a .eps, { st1 with rest := rest2 })
    | _ => .ok (a, st1)

def parseAtom : Nat → PState → Except RxErr (Rx × PState)
  | 0, _ => .error .badPattern
  | fuel+1, st =>
    match st.rest with
    | [] => .error .badPattern
    | '(' :: '?' :: ':' :: rest2 => do
      let (a, st1) ← parseAlt fuel { st with rest := rest2 }
      match st1.rest with
      | ')' :: rest3 => .ok (a, { st1 with rest := rest3 })
      | _ => .error .badPattern
    | '(' :: '?' :: 'P' :: '<' :: rest2 =>
      match readGroupName rest2 with
      | none => .error .badPattern
      | some (nm, rest3) => do
        let idx := st.nextIdx
        let (a, st1) ← parseAlt fuel
          { rest := rest3, nextIdx := st.nextIdx + 1, names := st.names ++ [(nm, idx)] }
        match st1.rest with
        | ')' :: rest4 => .ok (.group idx (some nm) a, { st1 with rest := rest4 })
        | _ => .error .badPattern
    | '(' :: '?' :: _ => .error .badPattern
    | '(' :: rest2 => do
      let idx := st.nextIdx
      let (a, st1) ← parseAlt fuel { st with rest := rest2, nextIdx := st.nextIdx + 1 }
      match st1.rest with
      | ')' :: rest3 => .ok (.group idx none a, { st1 with rest := rest3 })
      | _ => .error .badPattern
    | ')' :: _ => .error .badPattern
    | '*' :: _ => .error .badPattern
    | '+' :: _ => .error .badPattern
    | '?' :: _ => .error .badPattern
    | '[' :: _ => .error .badPattern
    | '\\' :: c :: rest2 =>
      if c = 'd' then .ok (.cls .digit, { st with rest := rest2 })
      else if c = 'w' then .ok (.cls .word, { st with rest := rest2 })
      else if c = 's' then .ok (.cls .space, { st with rest := rest2 })
      else if c.isAlphanum then .error .badPattern
      else .ok (.lit c, { st with rest := rest2 })
    | '\\' :: [] => .error .badPattern
    | '.' :: rest2 => .ok (.cls .anychar, { st with rest := rest2 })
    | '^' :: rest2 => .ok (.bol, { st with rest := rest2 })
    | '$' :: rest2 => .ok (.eol, { st with rest := rest2 })
    | c :: rest2 => .ok (.lit c, { st with rest := rest2 })

end

/-- Result of `re.compile`: the syntax tree, the number of capture groups,
and the named groups with their positional numbers. -/
structure CompiledRx where
  ast : Rx
  ngroups : Nat
  names : List (String × Nat)
  deriving Repr

/-- Model of `re.compile(pattern, re.IGNORECASE | re.MULTILINE)` on the
regex subset described above: a result of `Except.error` corresponds to
`re.error` being raised. -/
def compileRegex (p : String) : Except RxErr CompiledRx :=
  let cs := p.toList
  match parseAlt (8 * (cs.length + 1) + 8) ⟨cs, 1, []⟩ with
  | .error e => .error e
  | .ok (r, st) =>
    if st.rest = [] then .ok ⟨r, st.nextIdx - 1, st.names⟩ else .error .badPattern

def clsMatch (k : ClsKind) (c : Char) : Bool :=
  match k with
  | .digit => c.isDigit
  | .word => c.isAlphanum || c = '_'
  | .space => c = ' ' || c = '\t' || c = '\n' || c = '\r'
  | .anychar => c ≠ '\n'

/-- Captures recorded so far: group number paired with the captured text;
the most recent write for a group shadows older ones. -/
def Caps := List (Nat × String)

def setCap (caps : Caps) (i : Nat) (s : String) : Caps := (i, s) :: caps

def lookupCap (caps : Caps) (i : Nat) : Option String :=
  match caps with
  | [] => none
  | (j, s) :: rest => if j = i then some s else lookupCap rest i

/-- Backtracking matcher in continuation-passing style, modelling the
leftmost-greedy behaviour of Python `re` on the embedded subset.  Literal
comparison is case-insensitive and the anchors use multiline semantics,
matching the flags `rename_from_text` always passes to `re.compile`.  The
fuel bounds the call depth; `searchFuel` below is large enough that it is
never exhausted on a search. -/
def matchRx : Nat → Rx → List Char → Nat → Caps → (Nat → Caps → Option Caps) → Option Caps
  | 0, _, _, _, _, _ => none
  | fuel+1, r, s, i, caps, k =>
    match r with
    | .eps => k i caps
    | .lit c =>
      match s[i]? with
      | some c2 => if c.toLower = c2.toLower then k (i+1) caps else none
      | none => none
    | .cls kind =>
      match s[i]? with
      | some c2 => if clsMatch kind c2 then k (i+1) caps else none
      | none => none
    | .bol =>
      if i = 0 then k i caps
      else if s[i-1]? = some '\n' then k i caps
      else none
    | .eol =>
      if i = s.length then k i caps
      else if s[i]? = some '\n' then k i caps
      else none
    | .seq a b =>
      matchRx fuel a s i caps fun j caps2 => matchRx fuel b s j caps2 k
    | .alt a b =>
      match matchRx fuel a s i caps k with
      | some res => some res
      | none => matchRx fuel b s i caps k
    | .star a =>
      match matchRx fuel a s i caps
          (fun j caps2 => if j = i then none else matchRx fuel (.star a) s j caps2 k) with
      | some res => some res
      | none => k i caps
    | .group idx _ a =>
      matchRx fuel a s i caps fun j caps2 =>
        k j (setCap caps2 idx (String.mk ((s.drop i).take (j - i))))

/-- Observable content of a Python match object as used by the source:
`m.groups()` (positional, group 1 first, `none` for a group that did not
participate) and `m.groupdict()`. -/
structure MatchRes where
  groups : List (Option String)
  groupdict : List (String × Option String)
  deriving DecidableEq, Repr

def searchFuel (r : Rx) (len : Nat) : Nat := (rxSize r + 2) * (len + 2) * 2

/-- Model of `rx.search(text)`: try every start position from the left and
return the first successful match. -/
def rxSearch (rx : CompiledRx) (text : String) : Option MatchRes :=
  let s := text.toList
  ((List.range (s.length + 1)).findSome? fun i =>
    matchRx (searchFuel rx.ast s.length) rx.ast s i [] fun _ caps => some caps).map
    fun caps =>
      { groups := (List.range rx.ngroups).map fun g => lookupCap caps (g + 1)
        groupdict := rx.names.map fun p => (p.1, lookupCap caps p.2) }

instance {ε α : Type} [DecidableEq ε] [DecidableEq α] : DecidableEq (Except ε α) := fun a b =>
  match a, b with
  | .error x, .error y =>
    if h : x = y then isTrue (congrArg Except.error h)
    else isFalse fun hh => h (Except.error.inj hh)
  | .ok x, .ok y =>
    if h : x = y then isTrue (congrArg Except.ok h)
    else isFalse fun hh => h (Except.ok.inj hh)
  | .error _, .ok _ => isFalse fun hh => Except.noConfusion hh
  | .ok _, .error _ => isFalse fun hh => Except.noConfusion hh

/-! Model of the Python `str.format` mini-language as used by
`template.format(*groups_1indexed, **m.groupdict())` in the source. -/

/-- Error raised by `str.format`.  `missingIndex` models `IndexError`,
`missingKey` models `KeyError` — both are caught by the per-file
`except (IndexError, KeyError)` clause of `rename_from_text` — while
`malformed` models `ValueError` (unbalanced brace, mixing automatic and
manual field numbering, or an unsupported field form), which that clause
does not catch. -/
inductive TplError
  | missingIndex (i : Nat)
  | missingKey (k : String)
  | malformed
  deriving DecidableEq, Repr

inductive AutoMode
  | unset
  | auto
  | manual
  deriving DecidableEq, Repr

/-- Conversion a Python format field applies to the substituted value:
`str(None)` is the four-character string `None`. -/
def pyStr : Option String → String
  | none => "None"
  | some s => s

def isIdentField (cs : List Char) : Bool :=
  match cs with
  | [] => false
  | c :: rest => (c.isAlpha || c = '_') && rest.all fun x => x.isAlphanum || x = '_'

def digitsToNat (cs : List Char) : Nat :=
  cs.foldl (fun acc c => acc * 10 + (c.toNat - '0'.toNat)) 0

/-- Split a replacement field at its closing brace. -/
def spanField : List Char → Option (List Char × List Char)
  | [] => none
  | c :: rest =>
    if c = '\x7d' then some ([], rest)
    else
      match spanField rest with
      | none => none
      | some (f, r) => some (c :: f, r)

def formatCore : Nat → List Char → List (Option String) → List (String × Option String) →
    AutoMode → Nat → Except TplError String
  | 0, _, _, _, _, _ => .error .malformed
  | fuel+1, cs, args, kwargs, mode, auto =>
    match cs with
    | [] => .ok ""
    | '\x7b' :: '\x7b' :: rest =>
      (fun t => "\x7b" ++ t) <$> formatCore fuel rest args kwargs mode auto
    | '\x7d' :: '\x7d' :: rest =>
      (fun t => "\x7d" ++ t) <$> formatCore fuel rest args kwargs mode auto
    | '\x7d' :: _ => .error .malformed
    | '\x7b' :: rest =>
      match spanField rest with
      | none => .error .malformed
      | some (field, rest2) =>
        if field = [] then
          if mode = .manual then .error .malformed
          else
            match args[auto]? with
            | none => .error (.missingIndex auto)
            | some v =>
              (fun t => pyStr v ++ t) <$> formatCore fuel rest2 args kwargs .auto (auto + 1)
        else if field.all Char.isDigit then
          if mode = .auto then .error .malformed
          else
            match args[digitsToNat field]? with
            | none => .error (.missingIndex (digitsToNat field))
            | some v =>
              (fun t => pyStr v ++ t) <$> formatCore fuel rest2 args kwargs .manual auto
        else if isIdentField field then
          match kwargs.find? fun p => p.1 = String.mk field with
          | none => .error (.missingKey (String.mk field))
          | some p =>
            (fun t => pyStr p.2 ++ t) <$> formatCore fuel rest2 args kwargs mode auto
        else .error .malformed
    | c :: rest =>
      (fun t => String.mk [c] ++ t) <$> formatCore fuel rest args kwargs mode auto

/-- Model of `template.format(*args, **kwargs)` where every substituted
value is an optional capture (`None` or a string). -/
def strFormat (template : String) (args : List (Option String))
    (kwargs : List (String × Option String)) : Except TplError String :=
  formatCore (template.length + 1) template.toList args kwargs .unset 0

/-! Model of the extractor and the batch renamer. -/

/-- Observable behaviour of a PDF document through `pdfplumber` as the
source uses it: opening fails (any exception) or yields the pages, and
`page.extract_text()` on each page fails or yields an optional string. -/
structure PdfDoc where
  pages : Except Unit (List (Except Unit (Option String)))
  deriving DecidableEq, Repr

/-- Semantic content of the logging calls in `src/pdf_tools.py` (log
formatting itself is out of the specification's scope). -/
inductive LogEvent
  | extractOk (docName : String) (pageCount : Int)
  | extractFail (docName : String)
  | invalidRegex
  | noPdfs
  | header (count : Nat)
  | noText (docName : String)
  | noMatch (docName : String)
  | templateErr (docName : String) (e : TplError) (groups : List (Option String))
      (gdict : List (String × Option String))
  | targetExists (docName : String) (target : String)
  | planned (dry : Bool) (src : String) (dst : String)
  | summary (matchedCount total : Nat) (dry : Bool)
  deriving DecidableEq, Repr

/-- Severity of each modelled log call: `true` for the `logger.error`
calls of the source, `false` for its `logger.info` / `logger.warning`
calls. -/
def LogEvent.isError : LogEvent → Bool
  | .extractFail _ => true
  | .invalidRegex => true
  | .templateErr _ _ _ _ => true
  | .targetExists _ _ => true
  | _ => false

/-- Loop body of `extract_text`: collect the texts of the truthy pages in
order; a page whose extraction raises makes the whole collection fail (the
partial list is discarded by the `except` clause of the source). -/
def collectPages : List (Except Unit (Option String)) → Except Unit (List String)
  | [] => .ok []
  | p :: rest =>
    match p with
    | .error _ => .error ()
    | .ok t =>
      match collectPages rest with
      | .error _ => .error ()
      | .ok ts =>
        .ok ((match t with
              | some s => if s = "" then [] else [s]
              | none => []) ++ ts)

/-- Model of `extract_text(pdf_path, max_pages)`: the returned string and
the log events emitted.  `pdfName` stands for `pdf_path.name`, `doc` for
the document the path references.  As in the source, `total` is
`min(len(pdf.pages), max_pages)` (an `int`, possibly negative) and the
loop runs over `range(total)`. -/
def extract_text (pdfName : String) (doc : PdfDoc) (maxPages : Int) : String × List LogEvent :=
  match doc.pages with
  | .error _ => ("", [.extractFail pdfName])
  | .ok pages =>
    let total : Int := min (pages.length : Int) maxPages
    match collectPages (pages.take total.toNat) with
    | .error _ => ("", [.extractFail pdfName])
    | .ok parts => (String.intercalate "\n" parts, [.extractOk pdfName total])

/-- A directory entry: file name and the document content behind it. -/
structure FileEntry where
  fname : String
  doc : PdfDoc
  deriving DecidableEq, Repr

/-- Model of Python's case-sensitive literal `str.endswith` check as a
suffix test on the character list. -/
def strEndsWith (s suffix : String) : Bool :=
  suffix.toList.isSuffixOf s.toList

/-- Model of `folder.glob("*.pdf")`: the direct children whose name ends
in `.pdf` (case-sensitive), in directory order. -/
def globPdf (fs : List FileEntry) : List FileEntry :=
  fs.filter fun f => strEndsWith f.fname ".pdf"

/-- Model of `pdf.rename(new_path)` inside the folder. -/
def renameFs (fs : List FileEntry) (src dst : String) : List FileEntry :=
  fs.map fun f => if f.fname = src then { f with fname := dst } else f

/-- Suffix normalization of the rendered name (lines 104-105 of the
source): append `.pdf` unless the name already ends with it. -/
def ensurePdfSuffix (s : String) : String :=
  if strEndsWith s ".pdf" then s else s ++ ".pdf"

/-- Validity check `Path.with_name` performs on the new name; an invalid
name raises `ValueError`. -/
def validFileName (s : String) : Bool :=
  !(s = "" || s = "." || s.toList.contains '/')

/-- Exception escaping the per-file loop body uncaught (the source's
`except` clause catches only `IndexError` and `KeyError`). -/
inductive PyErr
  | valueError
  deriving DecidableEq, Repr

/-- Per-batch constants: compiled pattern, template, page limit, mode. -/
structure Ctx where
  rx : CompiledRx
  template : String
  maxPages : Int
  dryRun : Bool

/-- Mutable state of the batch loop: current folder contents, the
`matched` counter, and the log so far. -/
structure BatchSt where
  fs : List FileEntry
  matched : Nat
  log : List LogEvent

/-- Body of the `for pdf in pdfs` loop of `rename_from_text` for one
candidate.  Returns the state after this file together with `some e` when
an uncaught exception aborts the batch (log lines already emitted are
kept, as they are in Python). -/
def processOne (ctx : Ctx) (st : BatchSt) (pdf : FileEntry) : BatchSt × Option PyErr :=
  let ex := extract_text pdf.fname pdf.doc ctx.maxPages
  let txt := ex.1
  let st1 : BatchSt := { st with log := st.log ++ ex.2 }
  if txt = "" then
    ({ st1 with log := st1.log ++ [.noText pdf.fname] }, none)
  else
    match rxSearch ctx.rx txt with
    | none => ({ st1 with log := st1.log ++ [.noMatch pdf.fname] }, none)
    | some m =>
      match strFormat ctx.template ((none : Option String) :: m.groups) m.groupdict with
      | .error .malformed => (st1, some PyErr.valueError)
      | .error e =>
        ({ st1 with log := st1.log ++ [.templateErr pdf.fname e m.groups m.groupdict] }, none)
      | .ok rendered =>
        let new_name := ensurePdfSuffix rendered
        if !validFileName new_name then (st1, some PyErr.valueError)
        else if (st1.fs.any fun f => f.fname = new_name) && new_name ≠ pdf.fname then
          ({ st1 with log := st1.log ++ [.targetExists pdf.fname new_name] }, none)
        else
          let st2 := { st1 with log := st1.log ++ [LogEvent.planned ctx.dryRun pdf.fname new_name] }
          let st3 := if ctx.dryRun then st2 else { st2 with fs := renameFs st2.fs pdf.fname new_name }
          ({ st3 with matched := st3.matched + 1 }, none)

/-- The candidate loop: process files in sequence, stopping early when an
uncaught exception propagates. -/
def runBatch (ctx : Ctx) (st : BatchSt) : List FileEntry → BatchSt × Option PyErr
  | [] => (st, none)
  | f :: rest =>
    match processOne ctx st f with
    | (st2, none) => runBatch ctx st2 rest
    | (st2, some e) => (st2, some e)

/-- Outcome of one `rename_from_text` call: the returned count (or the
exception that propagated to the caller), the folder contents afterwards,
and the log. -/
structure RenameOutcome where
  result : Except PyErr Nat
  fs : List FileEntry
  log : List LogEvent
  deriving DecidableEq, Repr

/-- Model of `rename_from_text(folder, pattern, template, max_pages,
dry_run)` over a folder state `fs`. -/
def rename_from_text (fs : List FileEntry) (pattern template : String)
    (maxPages : Int) (dryRun : Bool) : RenameOutcome :=
  match compileRegex pattern with
  | .error _ => { result := .ok 0, fs := fs, log := [.invalidRegex] }
  | .ok rx =>
    let pdfs := globPdf fs
    if pdfs = [] then { result := .ok 0, fs := fs, log := [.noPdfs] }
    else
      match runBatch ⟨rx, template, maxPages, dryRun⟩ ⟨fs, 0, [.header pdfs.length]⟩ pdfs with
      | (st, some e) => { result := .error e, fs := st.fs, log := st.log }
      | (st, none) =>
        { result := .ok st.matched, fs := st.fs
          log := st.log ++ [.summary st.matched pdfs.length dryRun] }

/-- Per-file failure cases of the specification's recoverable taxonomy,
phrased over the pipeline values of `processOne`: empty extraction result,
no pattern match, template rendering hitting a missing group index or
missing group name, or a destination collision. -/
def SkipCase (ctx : Ctx) (st : BatchSt) (f : FileEntry) : Prop :=
  let txt := (extract_text f.fname f.doc ctx.maxPages).1
  txt = ""
  ∨ (txt ≠ "" ∧ rxSearch ctx.rx txt = none)
  ∨ (txt ≠ "" ∧ ∃ m, rxSearch ctx.rx txt = some m ∧
      ((∃ i, strFormat ctx.template ((none : Option String) :: m.groups) m.groupdict
          = .error (.missingIndex i))
       ∨ (∃ k, strFormat ctx.template ((none : Option String) :: m.groups) m.groupdict
          = .error (.missingKey k))))
  ∨ (txt ≠ "" ∧ ∃ m nm, rxSearch ctx.rx txt = some m ∧
      strFormat ctx.template ((none : Option String) :: m.groups) m.groupdict = .ok nm ∧
      validFileName (ensurePdfSuffix nm) = true ∧
      (st.fs.any fun g => g.fname = ensurePdfSuffix nm) = true ∧
      ensurePdfSuffix nm ≠ f.fname)

/-! Concrete fixtures used by the example-based theorems and witnesses. -/

def invoiceDoc : PdfDoc := ⟨Except.ok [Except.ok (some "Date: 2020\nInvoice #4521\nTotal")]⟩

def invoiceFolder : List FileEntry := [⟨"inv.pdf", invoiceDoc⟩]

def orderDoc : PdfDoc := ⟨Except.ok [Except.ok (some "Order ID: AB99")]⟩

def orderFolder : List FileEntry := [⟨"ord.pdf", orderDoc⟩]

def kDoc : PdfDoc := ⟨Except.ok [Except.ok (some "k")]⟩

def collideFolder : List FileEntry := [⟨"a.pdf", kDoc⟩, ⟨"b.pdf", kDoc⟩]

def xzDoc : PdfDoc := ⟨Except.ok [Except.ok (some "xz")]⟩

def xzFolder : List FileEntry := [⟨"a.pdf", xzDoc⟩]

def xDoc : PdfDoc := ⟨Except.ok [Except.ok (some "x")]⟩

def xFolder : List FileEntry := [⟨"a.pdf", xDoc⟩, ⟨"b.pdf", xDoc⟩]

def failedDoc : PdfDoc := ⟨Except.error ()⟩

def xRx : CompiledRx := ⟨.seq (.lit 'x') .eps, 0, []⟩

/-! Helper lemmas. -/

theorem collectPages_all_ok (l : List (Except Unit (Option String)))
    (h : ∀ p ∈ l, p ≠ Except.error ()) :
    collectPages l = .ok (l.filterMap fun p =>
      match p with
      | .ok (some s) => if s = "" then none else some s
      | _ => none) := by
  induction l with
  | nil => rfl
  | cons p rest ih =>
    have hp : p ≠ Except.error () := h p (List.mem_cons_self p rest)
    have ih2 := ih fun q hq => h q (List.mem_cons_of_mem p hq)
    match p, hp with
    | .ok t, _ =>
      cases t with
      | none => simp [collectPages, ih2]
      | some s =>
        by_cases hs : s = "" <;> simp [collectPages, ih2, hs]
    | .error (), hp => exact absurd rfl hp

theorem collectPages_has_err (l : List (Except Unit (Option String)))
    (h : ∃ p ∈ l, p = Except.error ()) :
    collectPages l = .error () := by
  induction l with
  | nil => simp at h
  | cons p rest ih =>
    rcases h with ⟨q, hq, hqe⟩
    rcases List.mem_cons.mp hq with hh | hh
    · subst hh; subst hqe; rfl
    · cases p with
      | error u => rfl
      | ok t => simp [collectPages, ih ⟨q, hh, hqe⟩]

theorem processOne_dry_fs (ctx : Ctx) (st : BatchSt) (f : FileEntry)
    (h : ctx.dryRun = true) :
    ((processOne ctx st f).1).fs = st.fs := by
  unfold processOne
  simp only [h, if_true]
  split
  · rfl
  · split
    · rfl
    · split
      · rfl
      · rfl
      · split
        · rfl
        · split
          · rfl
          · rfl

theorem processOne_mode (rx : CompiledRx) (tpl : String) (mp : Int) (st : BatchSt)
    (f : FileEntry) :
    (processOne ⟨rx, tpl, mp, true⟩ st f).1.matched
      = (processOne ⟨rx, tpl, mp, false⟩ st f).1.matched
    ∧ (processOne ⟨rx, tpl, mp, true⟩ st f).2 = (processOne ⟨rx, tpl, mp, false⟩ st f).2 := by
  unfold processOne
  by_cases h1 : (extract_text f.fname f.doc mp).1 = ""
  · simp [h1]
  · simp only [h1, if_false]
    cases hm : rxSearch rx (extract_text f.fname f.doc mp).1 with
    | none => simp
    | some m =>
      cases hf : strFormat tpl ((none : Option String) :: m.groups) m.groupdict with
      | error e => cases e <;> simp [hf]
      | ok nm =>
        simp only [hf]
        by_cases hv : validFileName (ensurePdfSuffix nm) = true
        · by_cases hc : (∃ x ∈ st.fs, x.fname = ensurePdfSuffix nm) ∧ ¬ensurePdfSuffix nm = f.fname
          · simp [hv, hc]
          · simp [hv, hc]
        · simp_all

theorem runBatch_dry_fs (ctx : Ctx) (h : ctx.dryRun = true) (l : List FileEntry) :
    ∀ st : BatchSt, ((runBatch ctx st l).1).fs = st.fs := by
  induction l with
  | nil => intro st; rfl
  | cons f rest ih =>
    intro st
    have hfs : ((processOne ctx st f).1).fs = st.fs := processOne_dry_fs ctx st f h
    unfold runBatch
    rcases hp : processOne ctx st f with ⟨st2, err⟩
    rw [hp] at hfs
    cases err with
    | none => simpa [ih st2] using hfs
    | some e => simpa using hfs

theorem rename_from_text_dry_fs (fs : List FileEntry) (pattern template : String)
    (mp : Int) :
    (rename_from_text fs pattern template mp true).fs = fs := by
  unfold rename_from_text
  cases hc : compileRegex pattern with
  | error e => rfl
  | ok rx =>
    by_cases hg : globPdf fs = []
    · simp [hg]
    · simp only [hg, if_neg, ite_false]
      have hb := runBatch_dry_fs ⟨rx, template, mp, true⟩ rfl (globPdf fs)
        ⟨fs, 0, [.header (globPdf fs).length]⟩
      rcases hr : runBatch ⟨rx, template, mp, true⟩
          ⟨fs, 0, [.header (globPdf fs).length]⟩ (globPdf fs) with ⟨st, err⟩
      rw [hr] at hb
      cases err <;> simpa using hb

theorem processOne_skip (ctx : Ctx) (st : BatchSt) (f : FileEntry)
    (h : SkipCase ctx st f) :
    (processOne ctx st f).2 = none
    ∧ ((processOne ctx st f).1).fs = st.fs
    ∧ ((processOne ctx st f).1).matched = st.matched := by
  unfold SkipCase at h
  unfold processOne
  rcases h with h | ⟨ht, hm⟩ | ⟨ht, m, hm, herr⟩ | ⟨ht, m, nm, hm, hf, hv, hex, hne⟩
  · simp [h]
  · simp [ht, hm]
  · rcases herr with ⟨i, hf⟩ | ⟨k, hf⟩ <;> simp [ht, hm, hf]
  · have hex2 : ∃ x ∈ st.fs, x.fname = ensurePdfSuffix nm := by
      simpa using hex
    simp [ht, hm, hf, hv, hex2, hne]

theorem processOne_fs_changed (ctx : Ctx) (st : BatchSt) (f : FileEntry)
    (hfs : ((processOne ctx st f).1).fs ≠ st.fs) :
    ctx.dryRun = false
    ∧ ∃ m nm, rxSearch ctx.rx (extract_text f.fname f.doc ctx.maxPages).1 = some m
      ∧ strFormat ctx.template ((none : Option String) :: m.groups) m.groupdict = .ok nm
      ∧ (¬(∃ x ∈ st.fs, x.fname = ensurePdfSuffix nm) ∨ ensurePdfSuffix nm = f.fname)
      ∧ ((processOne ctx st f).1).fs = renameFs st.fs f.fname (ensurePdfSuffix nm) := by
  by_cases hd : ctx.dryRun = true
  · exact absurd (processOne_dry_fs ctx st f hd) hfs
  · have hd2 : ctx.dryRun = false := by simpa using hd
    refine ⟨hd2, ?_⟩
    unfold processOne at hfs ⊢
    by_cases h1 : (extract_text f.fname f.doc ctx.maxPages).1 = ""
    · simp [h1] at hfs
    · simp only [h1, if_false] at hfs ⊢
      cases hm : rxSearch ctx.rx (extract_text f.fname f.doc ctx.maxPages).1 with
      | none => simp [hm] at hfs
      | some m =>
        simp only [hm] at hfs ⊢
        cases hf : strFormat ctx.template ((none : Option String) :: m.groups) m.groupdict with
        | error e => cases e <;> simp [hf] at hfs
        | ok nm =>
          simp only [hf] at hfs ⊢
          by_cases hv : validFileName (ensurePdfSuffix nm) = true
          · by_cases hcol : (∃ x ∈ st.fs, x.fname = ensurePdfSuffix nm)
              ∧ ¬ensurePdfSuffix nm = f.fname
            · simp [hv, hcol] at hfs
            · refine ⟨m, nm, rfl, hf, ?_, ?_⟩
              · by_cases hexq : ∃ x ∈ st.fs, x.fname = ensurePdfSuffix nm
                · right
                  by_contra hne
                  exact hcol ⟨hexq, hne⟩
                · left; exact hexq
              · simp [hv, hcol, hd2]
          · simp_all

theorem runBatch_cons (ctx : Ctx) (st : BatchSt) (f : FileEntry) (rest : List FileEntry)
    (h : (processOne ctx st f).2 = none) :
    runBatch ctx st (f :: rest) = runBatch ctx ((processOne ctx st f).1) rest := by
  rcases hq : processOne ctx st f with ⟨st2, err⟩
  rw [hq] at h
  simp only at h
  subst h
  simp [runBatch, hq]

/-! Theorems settling the claims. -/

/-- C1 counterexample: with pattern `x(y)?z` matched against `xz`, group 1
does not participate; the claim says it substitutes into template `{1}` as
an empty or absent marker that is propagated, but the code renders the
planned destination `None.pdf` — the absent group is silently coerced to
the string `None` by `str.format`, not propagated as an empty marker
(which would have yielded `.pdf`). -/
theorem nonparticipating_group_counterexample :
    (rename_from_text xzFolder "x(y)?z" "{1}" 1 true).log
      = [LogEvent.header 1, LogEvent.extractOk "a.pdf" 1,
         LogEvent.planned true "a.pdf" "None.pdf", LogEvent.summary 1 1 true]
    ∧ ("None.pdf" : String) ≠ ".pdf" :=
  ⟨by decide, by decide⟩

/-- C1 (amended): for every match whose positional group 1 did not
participate, template `{1}` renders the four-character string `None` (the
`str` form of the Python `None` marker), silently coerced into the
rendered name. -/
theorem nonparticipating_group_renders_None (m : MatchRes)
    (h : m.groups[0]? = some none) :
    strFormat "{1}" ((none : Option String) :: m.groups) m.groupdict = Except.ok "None" := by
  have h1 : ((none : Option String) :: m.groups)[1]? = some none := by simpa using h
  show (match ((none : Option String) :: m.groups)[1]? with
        | none => (Except.error (TplError.missingIndex 1) : Except TplError String)
        | some v => Except.ok (pyStr v ++ "")) = Except.ok "None"
  rw [h1]
  rfl

/-- C1 witness: the amended theorem evaluated at the concrete match of the
counterexample. -/
theorem nonparticipating_group_renders_None_witness :
    strFormat "{1}" [none, none] [] = Except.ok "None" :=
  nonparticipating_group_renders_None ⟨[none], []⟩ rfl

/-- C2 counterexample: two candidate files both match, but the template is
the malformed `\x7b`; rendering the first file raises `ValueError`, which
the per-file clause does not catch, so the batch aborts: the result is the
propagated exception, the second file is never processed (its name appears
nowhere in the log), and no summary is reported — contradicting the claim
that any per-file error only skips that file and the batch continues. -/
theorem uncaught_template_error_aborts_batch :
    rename_from_text xFolder "x" "\x7b" 1 true
      = ⟨Except.error PyErr.valueError, xFolder,
         [LogEvent.header 2, LogEvent.extractOk "a.pdf" 1]⟩
    ∧ (Except.error PyErr.valueError : Except PyErr Nat) ≠ Except.ok 0 :=
  ⟨by decide, by decide⟩

/-- C2 (amended): the per-file failures that are recoverable are exactly
those of the source taxonomy — extraction failure or no text, no pattern
match, template rendering hitting a missing group index or missing group
name, destination collision.  Each of these only logs and skips the file,
leaves the folder and the matched counter unchanged, raises nothing, and
the batch continues with the remaining candidates.  Other errors (such as
the `ValueError` of the counterexample) propagate and abort the batch. -/
theorem recoverable_failures_skip_and_continue (ctx : Ctx) (st : BatchSt) (f : FileEntry)
    (rest : List FileEntry) (h : SkipCase ctx st f) :
    (processOne ctx st f).2 = none
    ∧ ((processOne ctx st f).1).fs = st.fs
    ∧ ((processOne ctx st f).1).matched = st.matched
    ∧ runBatch ctx st (f :: rest) = runBatch ctx ((processOne ctx st f).1) rest := by
  obtain ⟨h1, h2, h3⟩ := processOne_skip ctx st f h
  exact ⟨h1, h2, h3, runBatch_cons ctx st f rest h1⟩

/-- C2 witness: a file whose extraction fails is skipped without aborting
the batch. -/
theorem recoverable_failures_skip_and_continue_witness :
    (processOne ⟨xRx, "t", 1, true⟩ ⟨[], 0, []⟩ ⟨"a.pdf", failedDoc⟩).2 = none :=
  (recoverable_failures_skip_and_continue ⟨xRx, "t", 1, true⟩ ⟨[], 0, []⟩
    ⟨"a.pdf", failedDoc⟩ [] (Or.inl rfl)).1

/-- C3: when the computed destination exists in the folder and differs
from the source name, the file is left untouched (folder unchanged), not
counted as matched, nothing is raised, and the batch continues with the
next candidates; conversely, in apply mode the folder is only ever changed
by a file whose destination either did not exist or equals the source. -/
theorem collision_guard_skips_file (ctx : Ctx) (st : BatchSt) (f : FileEntry)
    (rest : List FileEntry) :
    (∀ m nm,
      (extract_text f.fname f.doc ctx.maxPages).1 ≠ "" →
      rxSearch ctx.rx (extract_text f.fname f.doc ctx.maxPages).1 = some m →
      strFormat ctx.template ((none : Option String) :: m.groups) m.groupdict = Except.ok nm →
      validFileName (ensurePdfSuffix nm) = true →
      (st.fs.any fun g => g.fname = ensurePdfSuffix nm) = true →
      ensurePdfSuffix nm ≠ f.fname →
      ((processOne ctx st f).1).fs = st.fs
      ∧ ((processOne ctx st f).1).matched = st.matched
      ∧ (processOne ctx st f).2 = none
      ∧ runBatch ctx st (f :: rest) = runBatch ctx ((processOne ctx st f).1) rest)
    ∧ (ctx.dryRun = false → ((processOne ctx st f).1).fs ≠ st.fs →
        ∃ m nm, rxSearch ctx.rx (extract_text f.fname f.doc ctx.maxPages).1 = some m
          ∧ strFormat ctx.template ((none : Option String) :: m.groups) m.groupdict
              = Except.ok nm
          ∧ (¬(∃ x ∈ st.fs, x.fname = ensurePdfSuffix nm) ∨ ensurePdfSuffix nm = f.fname)) := by
  constructor
  · intro m nm htxt hm hf hv hex hne
    have hsk : SkipCase ctx st f := by
      simp only [SkipCase]
      exact Or.inr (Or.inr (Or.inr ⟨htxt, m, nm, hm, hf, hv, hex, hne⟩))
    obtain ⟨h1, h2, h3⟩ := processOne_skip ctx st f hsk
    exact ⟨h2, h3, h1, runBatch_cons ctx st f rest h1⟩
  · intro hd hfs
    obtain ⟨-, m, nm, hm, hf, hcond, -⟩ := processOne_fs_changed ctx st f hfs
    exact ⟨m, nm, hm, hf, hcond⟩

/-- C3 witness: a concrete collision (destination `X.pdf` already present,
source `a.pdf`) leaves the folder untouched. -/
theorem collision_guard_skips_file_witness :
    ((processOne ⟨xRx, "X", 1, false⟩ ⟨[⟨"X.pdf", failedDoc⟩], 0, []⟩
        ⟨"a.pdf", xDoc⟩).1).fs = [⟨"X.pdf", failedDoc⟩] :=
  ((collision_guard_skips_file ⟨xRx, "X", 1, false⟩ ⟨[⟨"X.pdf", failedDoc⟩], 0, []⟩
      ⟨"a.pdf", xDoc⟩ []).1 ⟨[], []⟩ "X" (by decide) rfl rfl rfl rfl (by decide)).1

/-- C4: the extractor is total (it returns a string, never an exception);
when the document fails to open the result is empty; otherwise, over the
first `min(available, max_pages)` pages, any page-level extraction error
yields the empty result, an error-free prefix yields exactly the
newline-joined non-empty page texts in page order, and if no page yields
text the result is empty. -/
theorem extract_text_contract (pdfName : String) (doc : PdfDoc) (maxPages : Int)
    (h : 1 ≤ maxPages) :
    (doc.pages = Except.error () → (extract_text pdfName doc maxPages).1 = "")
    ∧ ∀ pages, doc.pages = Except.ok pages →
        ((∃ p ∈ pages.take (min (pages.length : Int) maxPages).toNat, p = Except.error ()) →
            (extract_text pdfName doc maxPages).1 = "")
        ∧ ((∀ p ∈ pages.take (min (pages.length : Int) maxPages).toNat, p ≠ Except.error ()) →
            (extract_text pdfName doc maxPages).1
              = String.intercalate "\n"
                  ((pages.take (min (pages.length : Int) maxPages).toNat).filterMap fun p =>
                    match p with
                    | .ok (some s) => if s = "" then none else some s
                    | _ => none))
        ∧ ((∀ p ∈ pages.take (min (pages.length : Int) maxPages).toNat,
              p = Except.ok (none : Option String) ∨ p = Except.ok (some "")) →
            (extract_text pdfName doc maxPages).1 = "") := by
  refine ⟨fun he => by simp [extract_text, he], fun pages hp => ⟨?_, ?_, ?_⟩⟩
  · intro hex
    simp [extract_text, hp, collectPages_has_err _ hex]
  · intro hall
    simp [extract_text, hp, collectPages_all_ok _ hall]
  · intro hall
    have h1 : ∀ p ∈ pages.take (min (pages.length : Int) maxPages).toNat,
        p ≠ Except.error () := by
      intro p hpm
      rcases hall p hpm with hq | hq <;> simp [hq]
    have h3 : ((pages.take (min (pages.length : Int) maxPages).toNat).filterMap fun p =>
        match p with
        | .ok (some s) => if s = "" then none else some s
        | _ => none) = [] := by
      rw [List.filterMap_eq_nil_iff]
      intro p hpm
      rcases hall p hpm with hq | hq <;> simp [hq]
    simp [extract_text, hp, collectPages_all_ok _ h1, h3]
    rfl

/-- C4 witness: the contract applied to a document that fails to open. -/
theorem extract_text_contract_witness :
    (extract_text "w.pdf" failedDoc 1).1 = "" :=
  (extract_text_contract "w.pdf" failedDoc 1 (by decide)).1 rfl

/-- C5: a malformed pattern makes `rename_from_text` return 0 with the
folder untouched regardless of its contents, and a well-formed pattern
with no `*.pdf` candidates likewise returns 0 with the folder untouched;
the two abort conditions are reported by distinct log events. -/
theorem batch_gates_return_zero (fs : List FileEntry) (pattern template : String)
    (maxPages : Int) (dryRun : Bool) :
    (∀ e, compileRegex pattern = Except.error e →
        rename_from_text fs pattern template maxPages dryRun
          = ⟨Except.ok 0, fs, [LogEvent.invalidRegex]⟩)
    ∧ (∀ rx, compileRegex pattern = Except.ok rx → globPdf fs = [] →
        rename_from_text fs pattern template maxPages dryRun
          = ⟨Except.ok 0, fs, [LogEvent.noPdfs]⟩)
    ∧ LogEvent.invalidRegex ≠ LogEvent.noPdfs := by
  refine ⟨?_, ?_, by decide⟩
  · intro e he
    simp [rename_from_text, he]
  · intro rx hrx hg
    simp [rename_from_text, hrx, hg]

/-- C5 witness: the two gates evaluated on concrete inputs — the malformed
pattern `(` and an empty folder. -/
theorem batch_gates_return_zero_witness :
    rename_from_text [] "(" "t" 1 true = ⟨Except.ok 0, [], [LogEvent.invalidRegex]⟩
    ∧ rename_from_text [] "a" "t" 1 true = ⟨Except.ok 0, [], [LogEvent.noPdfs]⟩ :=
  ⟨(batch_gates_return_zero [] "(" "t" 1 true).1 RxErr.badPattern rfl,
   (batch_gates_return_zero [] "a" "t" 1 true).2.1 _ rfl rfl⟩

/-- C6: a preview (dry-run) invocation leaves the folder unchanged;
running the same preview invocation twice in a row yields the identical
outcome (same planned renames, count and log); and for any one file in
any state, the matched counter and the abort behaviour of the per-file
step are the same in preview mode as in apply mode. -/
theorem preview_mode_pure_and_counts_like_apply (fs : List FileEntry)
    (pattern template : String) (maxPages : Int) :
    (rename_from_text fs pattern template maxPages true).fs = fs
    ∧ rename_from_text ((rename_from_text fs pattern template maxPages true).fs)
        pattern template maxPages true
      = rename_from_text fs pattern template maxPages true
    ∧ ∀ (rx : CompiledRx) (st : BatchSt) (f : FileEntry),
        (processOne ⟨rx, template, maxPages, true⟩ st f).1.matched
          = (processOne ⟨rx, template, maxPages, false⟩ st f).1.matched
        ∧ (processOne ⟨rx, template, maxPages, true⟩ st f).2
          = (processOne ⟨rx, template, maxPages, false⟩ st f).2 := by
  refine ⟨rename_from_text_dry_fs fs pattern template maxPages, ?_,
    fun rx st f => processOne_mode rx template maxPages st f⟩
  rw [rename_from_text_dry_fs fs pattern template maxPages]

/-- C7: the rendered name gets `.pdf` appended exactly when it lacks that
suffix under the case-sensitive literal check: `foo` becomes `foo.pdf`,
`foo.pdf` is unchanged, and the differently-cased `FOO.PDF` still gets the
suffix appended. -/
theorem pdf_suffix_normalization :
    (∀ s : String, ensurePdfSuffix s = if strEndsWith s ".pdf" then s else s ++ ".pdf")
    ∧ ensurePdfSuffix "foo" = "foo.pdf"
    ∧ ensurePdfSuffix "foo.pdf" = "foo.pdf"
    ∧ ensurePdfSuffix "FOO.PDF" = "FOO.PDF.pdf" :=
  ⟨fun s => rfl, by decide, by decide, by decide⟩

/-- C8: pattern `Invoice #(\d+)` with template `INV_{1}.pdf` on text
containing `Invoice #4521` plans destination `INV_4521.pdf` (group 1
occupies substitution slot 1); pattern `Order ID: (?P<order>\w+)` with
template `ORDER_{order}.pdf` on `Order ID: AB99` plans `ORDER_AB99.pdf`;
and substitution slot 0 holds the reserved dummy (rendering as `None`),
confirming the one-slot shift. -/
theorem group_indexing_examples :
    rename_from_text invoiceFolder "Invoice #(\\d+)" "INV_{1}.pdf" 1 true
      = ⟨Except.ok 1, invoiceFolder,
         [LogEvent.header 1, LogEvent.extractOk "inv.pdf" 1,
          LogEvent.planned true "inv.pdf" "INV_4521.pdf", LogEvent.summary 1 1 true]⟩
    ∧ rename_from_text orderFolder "Order ID: (?P<order>\\w+)" "ORDER_{order}.pdf" 1 true
      = ⟨Except.ok 1, orderFolder,
         [LogEvent.header 1, LogEvent.extractOk "ord.pdf" 1,
          LogEvent.planned true "ord.pdf" "ORDER_AB99.pdf", LogEvent.summary 1 1 true]⟩
    ∧ strFormat "{0}" [none, some "4521"] [] = Except.ok "None" :=
  ⟨by decide, by decide, by decide⟩

/-- C9 counterexample: at `max_pages = 0` with a document that fails to
open, the extractor still returns the empty string without raising, but it
does report an error (the modelled `logger.error` call), contradicting the
claim that no error is reported for any document path. -/
theorem extract_nonpositive_error_reported :
    extract_text "bad.pdf" failedDoc 0 = ("", [LogEvent.extractFail "bad.pdf"])
    ∧ ((extract_text "bad.pdf" failedDoc 0).2.any LogEvent.isError) = true :=
  ⟨by decide, by decide⟩

/-- C9 (amended): for `max_pages ≤ 0` the extractor is total and returns
the empty string without raising; when the document opens it processes
zero pages and reports only a success log line (no error), while a
document that fails to open still returns the empty string but logs an
error. -/
theorem extract_nonpositive_pages_total (pdfName : String) (doc : PdfDoc) (maxPages : Int)
    (h : maxPages ≤ 0) :
    (extract_text pdfName doc maxPages).1 = ""
    ∧ (∀ pages, doc.pages = Except.ok pages →
        extract_text pdfName doc maxPages
          = ("", [LogEvent.extractOk pdfName (min (pages.length : Int) maxPages)])
        ∧ ∀ e ∈ (extract_text pdfName doc maxPages).2, e.isError = false)
    ∧ (doc.pages = Except.error () →
        extract_text pdfName doc maxPages = ("", [LogEvent.extractFail pdfName])) := by
  have key : ∀ pages, doc.pages = Except.ok pages →
      extract_text pdfName doc maxPages
        = ("", [LogEvent.extractOk pdfName (min (pages.length : Int) maxPages)]) := by
    intro pages hp
    have htz : (min (pages.length : Int) maxPages).toNat = 0 :=
      Int.toNat_of_nonpos (le_trans (min_le_right _ _) h)
    simp [extract_text, hp, htz, collectPages]
    rfl
  refine ⟨?_, fun pages hp => ⟨key pages hp, ?_⟩, fun he => by simp [extract_text, he]⟩
  · cases hdp : doc.pages with
    | error u => cases u; simp [extract_text, hdp]
    | ok pages => rw [key pages hdp]
  · rw [key pages hp]
    intro e he
    simp only [List.mem_singleton] at he
    subst he
    rfl

/-- C9 witness: the amended theorem at a concrete document and a negative
page limit. -/
theorem extract_nonpositive_pages_total_witness :
    (extract_text "w.pdf" xzDoc (-2)).1 = "" :=
  (extract_nonpositive_pages_total "w.pdf" xzDoc (-2) (by decide)).1

/-- C10: on a folder whose two files both render destination `X.pdf`
(which does not yet exist), the preview run reports and counts both
(matched 2, folder untouched), while the apply run renames the first and
refuses the second because the destination now exists at the moment the
second file is processed (matched 1): the preview count exceeds the apply
count of the same batch. -/
theorem preview_count_can_exceed_apply_count :
    rename_from_text collideFolder "k" "X" 1 true
      = ⟨Except.ok 2, collideFolder,
         [LogEvent.header 2, LogEvent.extractOk "a.pdf" 1,
          LogEvent.planned true "a.pdf" "X.pdf", LogEvent.extractOk "b.pdf" 1,
          LogEvent.planned true "b.pdf" "X.pdf", LogEvent.summary 2 2 true]⟩
    ∧ rename_from_text collideFolder "k" "X" 1 false
      = ⟨Except.ok 1, [⟨"X.pdf", kDoc⟩, ⟨"b.pdf", kDoc⟩],
         [LogEvent.header 2, LogEvent.extractOk "a.pdf" 1,
          LogEvent.planned false "a.pdf" "X.pdf", LogEvent.extractOk "b.pdf" 1,
          LogEvent.targetExists "b.pdf" "X.pdf", LogEvent.summary 1 2 false]⟩ :=
  ⟨by decide, by decide⟩

end PdfTools
